import Mathlib

/-!
Verification of the pausable behavior step controller (`BehaviorRunner`) and
its host-integration hook (`initRunnableBehavior`).

The JavaScript source is embedded shallowly:

* JavaScript values occurring as iterator payloads are the inductive `JSVal`.
* Promises are identified by allocation order: the `_waitP` slot holds an
  `Option Nat` (a promise id), so reference identity of futures is id
  equality.  `setInterval` handles share the same counter; the live or
  inactive handle `upCheckInterval` is an `Option Nat`.
* The async iterator supplied to the runner (`stepIterator`) is an id into an
  ambient environment `SourceEnv`, which gives, for each iterator id and each
  call count, the settled result of that call of `next()` (either a fulfilled
  `StepResult` or a rejection).  The mutable per-iterator call counts live in
  `cursors`, so a call of `next()` is exactly an increment of the cursor of
  the current iterator.
* The one `await` inside `step()` is modelled explicitly: when `step()`
  suspends on `waitToBeUnpaused()`, the flag `contPending` records the
  suspended continuation, which resumes (performing the step) on the interval
  tick that observes the pause flag false and resolves the promise.
* Rejections are `Except Error` with `Error := String`, so an error value
  propagating unmodified is equality of the payload.
-/

namespace Behaviors

/-- JavaScript values carried by iterator results. -/
inductive JSVal where
  | undef : JSVal
  | str : String → JSVal
  | num : Int → JSVal
  | boolean : Bool → JSVal
deriving DecidableEq, Repr

/-- Error identity for rejected promises and thrown exceptions. -/
abbrev Error := String

/-- One unit of progress from the action iterator: the object
yielded by a call of `stepIterator.next()`. -/
structure StepResult where
  done : Bool
  value : JSVal
deriving DecidableEq, Repr

/-- Normalized outcome produced by a post-step function. -/
structure StepOutcome where
  done : Bool
  wait : Bool
deriving DecidableEq, Repr

/-- A post-step function maps a raw iterator result to a normalized outcome,
or throws. -/
abbrev PostStepFN := StepResult → Except Error StepOutcome

/-- Modelled from the spec: the default policy `doneOrWait` is imported from
`./postStepFNs`, a file that is not part of the sources here.  Per the spec,
the default policy classifies a raw result as done, with wait set exactly when
the result is not done and its value is the policy-defined wait sentinel. -/
def waitSentinel : JSVal := JSVal.str "wait"

/-- Modelled from the spec: the default post-step classifier installed by the
constructor when no `postStepFN` is supplied.  It never throws and returns
done of the input together with the wait classification. -/
def doneOrWait (r : StepResult) : Except Error StepOutcome :=
  Except.ok { done := r.done, wait := !r.done && decide (r.value = waitSentinel) }

/-- The value a call of `performStep` resolves with: either the normalized
outcome produced by the installed post-step function, or, when none is
installed, the raw iterator result passed through. -/
inductive StepRetVal where
  | outcome : StepOutcome → StepRetVal
  | raw : StepResult → StepRetVal
deriving DecidableEq, Repr

/-- The environment of async iterators: for iterator id `i`, `srcs i k` is the
settled result of the `k`-th call of `next()` on iterator `i`. -/
abbrev SourceEnv := Nat → Nat → Except Error StepResult

/-- The instance fields of a `BehaviorRunner` object. -/
structure Runner where
  /-- Id of the current behavior action iterator (`this.stepIterator`). -/
  stepIterator : Nat
  /-- The live or inactive polling handle (`this.upCheckInterval`). -/
  upCheckInterval : Option Nat
  /-- The current post-step function (`this.postStepFN`); `none` models the
  slot holding `undefined`. -/
  postStepFN : Option PostStepFN
  /-- The pending wait promise slot (`this._waitP`), a promise id. -/
  waitP : Option Nat

/-- The constructor body: store the iterator, a null interval handle, the
supplied post-step function or else `doneOrWait`, and a null wait slot. -/
def BehaviorRunner.new (it : Nat) (fn : Option PostStepFN) : Runner :=
  { stepIterator := it
    upCheckInterval := none
    postStepFN := some (fn.getD doneOrWait)
    waitP := none }

/-- The full machine state: the window pause flag, the runner fields, a fresh
promise-id counter, the per-iterator cursors, and whether a `step()` body is
suspended awaiting the pending wait promise. -/
structure MachineState where
  /-- The shared flag `window.$WBBehaviorPaused`. -/
  pauseFlag : Bool
  runner : Runner
  /-- Allocation counter for promise and interval ids. -/
  nextPromiseId : Nat
  /-- Number of `next()` calls made so far on each iterator id. -/
  cursors : Nat → Nat
  /-- True while a `step()` continuation is suspended on the pending wait. -/
  contPending : Bool

/-- A machine state as observed right after constructing a runner: ambient
pause flag `flag`, freshly constructed runner, nothing allocated or advanced
yet. -/
def initialState (flag : Bool) (it : Nat) (fn : Option PostStepFN) : MachineState :=
  { pauseFlag := flag
    runner := BehaviorRunner.new it fn
    nextPromiseId := 0
    cursors := fun _ => 0
    contPending := false }

/-- The getter `isPaused`: reads the shared pause flag. -/
def isPaused (s : MachineState) : Bool := s.pauseFlag

/-- The method `pause()`: sets the shared pause flag to true. -/
def pause (s : MachineState) : MachineState := { s with pauseFlag := true }

/-- The method `unpause()`: sets the shared pause flag to false. -/
def unpause (s : MachineState) : MachineState := { s with pauseFlag := false }

/-- The method `swapBehaviorIterator(newBehaviorIterator, newPostStepFN)`:
installs the new iterator and, only when a new post-step function is actually
supplied, installs it as well. -/
def swapBehaviorIterator (s : MachineState) (newIt : Nat)
    (newFN : Option PostStepFN) : MachineState :=
  let s1 := { s with runner := { s.runner with stepIterator := newIt } }
  match newFN with
  | some f => { s1 with runner := { s1.runner with postStepFN := some f } }
  | none => s1

/-- The method `swapPostStepFn(newPostStepFN)`: unconditionally assigns the
argument to the post-step slot, so calling it with no argument stores
`undefined` there. -/
def swapPostStepFn (s : MachineState) (newFN : Option PostStepFN) : MachineState :=
  { s with runner := { s.runner with postStepFN := newFN } }

/-- The method `waitToBeUnpaused()`: returns the pending wait promise if one
exists; otherwise allocates a fresh promise, starts the polling interval, and
stores and returns the promise. -/
def waitToBeUnpaused (s : MachineState) : MachineState × Nat :=
  match s.runner.waitP with
  | some p => (s, p)
  | none =>
    let p := s.nextPromiseId
    ({ s with
        runner := { s.runner with waitP := some p, upCheckInterval := some p }
        nextPromiseId := p + 1 }, p)

/-- A call of `this.stepIterator.next()`: advances the cursor of the current
iterator by one and produces the settled result the environment assigns to
that call. -/
def next (srcs : SourceEnv) (s : MachineState) :
    MachineState × Except Error StepResult :=
  let i := s.runner.stepIterator
  let k := s.cursors i
  ({ s with cursors := fun j => if j = i then k + 1 else s.cursors j },
   srcs i k)

/-- The method `performStep()`: calls `next()`; when a post-step function is
installed the result promise is chained through it (a rejection or a throw
propagating unmodified), otherwise the raw result is returned directly. -/
def performStep (srcs : SourceEnv) (s : MachineState) :
    MachineState × Except Error StepRetVal :=
  let r := next srcs s
  match s.runner.postStepFN with
  | some f => (r.1, r.2.bind fun res => (f res).map StepRetVal.outcome)
  | none => (r.1, r.2.map StepRetVal.raw)

/-- What a call of `step()` does synchronously. -/
inductive StepReturn where
  /-- The pending wait existed already: that very promise is returned. -/
  | joinedWait (p : Nat) : StepReturn
  /-- The pause flag was observed true: the call suspends on the (fresh or
  existing) wait promise `p`; the step itself is deferred. -/
  | newWait (p : Nat) : StepReturn
  /-- The call ran `performStep()` at once and its promise settles to `r`. -/
  | immediate (r : Except Error StepRetVal) : StepReturn
deriving Repr

/-- The method `step()`: if a pending wait exists, return exactly that
promise; otherwise, if the pause flag is true, suspend on
`waitToBeUnpaused()` with the continuation registered; otherwise perform the
step at once. -/
def step (srcs : SourceEnv) (s : MachineState) : MachineState × StepReturn :=
  match s.runner.waitP with
  | some p => (s, StepReturn.joinedWait p)
  | none =>
    if s.pauseFlag then
      let w := waitToBeUnpaused s
      ({ w.1 with contPending := true }, StepReturn.newWait w.2)
    else
      let r := performStep srcs s
      (r.1, StepReturn.immediate r.2)

/-- One firing of the interval callback installed by `waitToBeUnpaused()`:
with the interval live and the pause flag observed false, it clears the
interval, nulls the wait slot and resolves the promise, which resumes the
suspended `step()` continuation (if any), running `performStep()`. -/
def tick (srcs : SourceEnv) (s : MachineState) :
    MachineState × Option (Except Error StepRetVal) :=
  match s.runner.upCheckInterval with
  | none => (s, none)
  | some _ =>
    if s.pauseFlag then (s, none)
    else
      let s1 := { s with
        runner := { s.runner with upCheckInterval := none, waitP := none } }
      if s.contPending then
        let r := performStep srcs { s1 with contPending := false }
        (r.1, some r.2)
      else (s1, none)

/-- The events of an execution: external calls on the runner, writes of the
shared flag, and interval ticks. -/
inductive Event where
  | callStep : Event
  | doPause : Event
  | doUnpause : Event
  | tickEv : Event
  | swapIterEv (i : Nat) (f : Option PostStepFN) : Event
  | swapFNEv (f : Option PostStepFN) : Event
  | callWait : Event

/-- Whether an event is a call of `swapBehaviorIterator`. -/
def Event.isSwapIter : Event → Bool
  | Event.swapIterEv _ _ => true
  | _ => false

/-- Execute one event; the second component lists the iterator ids on which
`next()` was called during the event. -/
def exec (srcs : SourceEnv) (s : MachineState) : Event → MachineState × List Nat
  | Event.callStep =>
    let r := step srcs s
    (r.1, match r.2 with
          | StepReturn.immediate _ => [s.runner.stepIterator]
          | _ => [])
  | Event.doPause => (pause s, [])
  | Event.doUnpause => (unpause s, [])
  | Event.tickEv =>
    let r := tick srcs s
    (r.1, match r.2 with
          | some _ => [s.runner.stepIterator]
          | none => [])
  | Event.swapIterEv i f => (swapBehaviorIterator s i f, [])
  | Event.swapFNEv f => (swapPostStepFn s f, [])
  | Event.callWait => ((waitToBeUnpaused s).1, [])

/-- Execute a list of events, accumulating the `next()` calls. -/
def execTrace (srcs : SourceEnv) (s : MachineState) :
    List Event → MachineState × List Nat
  | [] => (s, [])
  | e :: es =>
    let r := exec srcs s e
    let r2 := execTrace srcs r.1 es
    (r2.1, r.2 ++ r2.2)

/-- A concrete iterator environment: iterator 0 yields value a, then value b,
then is done; every other iterator is immediately done. -/
def srcsAB : SourceEnv := fun i k =>
  if i = 0 then
    if k = 0 then Except.ok { done := false, value := JSVal.str "a" }
    else if k = 1 then Except.ok { done := false, value := JSVal.str "b" }
    else Except.ok { done := true, value := JSVal.undef }
  else Except.ok { done := true, value := JSVal.undef }

/-- A concrete post-step function used as the previously installed policy in
counterexamples: it always sets wait. -/
def alwaysWaitFN : PostStepFN := fun r =>
  Except.ok { done := r.done, wait := true }

/-- The coordinate payload of a synthetic mouse event. -/
structure MousePosition where
  pageX : Int
  pageY : Int
  clientX : Int
  clientY : Int
  screenX : Int
  screenY : Int
deriving DecidableEq, Repr

/-- A synthetic mouse event as dispatched on the document. -/
structure MouseEvent where
  type : String
  position : MousePosition
deriving DecidableEq, Repr

/-- Modelled from the spec: `createMouseEvent` is imported from `./events`, a
file that is not part of the sources here.  Per the spec it synthesizes one
pointer-movement event carrying the given type and fixed coordinates. -/
def createMouseEvent (type : String) (position : MousePosition) : MouseEvent :=
  { type := type, position := position }

/-- The window object as touched by `initRunnableBehavior`: the three
well-known registration slots and the log of events dispatched on the
document. -/
structure WindowObj where
  /-- The slot `$WBBehaviorStepIter$`. -/
  stepIterSlot : Option Nat
  /-- The slot `$WBBehaviorRunner$`. -/
  runnerSlot : Option Runner
  /-- The slot `$WRIteratorHandler$`; it holds the bound `step` method of a
  runner, identified here by that runner. -/
  handlerSlot : Option Runner
  /-- Events dispatched on `win.document`, in order. -/
  dispatched : List MouseEvent

/-- The function `initRunnableBehavior(win, behaviorStepIterator, postStepFN)`:
registers the iterator, constructs the runner and registers it and its bound
`step` method, dispatches one synthetic mousemove event with fixed
coordinates on the document, and returns the runner. -/
def initRunnableBehavior (win : WindowObj) (behaviorStepIterator : Nat)
    (postStepFN : Option PostStepFN) : WindowObj × Runner :=
  let win1 := { win with stepIterSlot := some behaviorStepIterator }
  let runner := BehaviorRunner.new behaviorStepIterator postStepFN
  let win2 := { win1 with runnerSlot := some runner, handlerSlot := some runner }
  let ev := createMouseEvent "mousemove"
    { pageX := 15, pageY := 15, clientX := 150, clientY := 150,
      screenX := 500, screenY := 250 }
  let win3 := { win2 with dispatched := win2.dispatched ++ [ev] }
  (win3, runner)

/-!
Helper lemmas shared by the trace theorems.
-/

/-- No event other than an unpause turns the pause flag off. -/
theorem exec_preserves_pauseFlag (srcs : SourceEnv) (s : MachineState)
    (e : Event) (hf : s.pauseFlag = true) (he : e ≠ Event.doUnpause) :
    (exec srcs s e).1.pauseFlag = true := by
  cases e with
  | callStep =>
    cases hw : s.runner.waitP with
    | some p => simp [exec, step, hw, hf]
    | none => simp [exec, step, waitToBeUnpaused, hw, hf]
  | doPause => simp [exec, pause]
  | doUnpause => exact absurd rfl he
  | tickEv =>
    cases hu : s.runner.upCheckInterval with
    | none => simp [exec, tick, hu, hf]
    | some h => simp [exec, tick, hu, hf]
  | swapIterEv i f =>
    cases f with
    | some g => simp [exec, swapBehaviorIterator, hf]
    | none => simp [exec, swapBehaviorIterator, hf]
  | swapFNEv f => simp [exec, swapPostStepFn, hf]
  | callWait =>
    cases hw : s.runner.waitP with
    | some p => simp [exec, waitToBeUnpaused, hw, hf]
    | none => simp [exec, waitToBeUnpaused, hw, hf]

/-- While the pause flag is observed true, no event calls `next()`. -/
theorem exec_no_advance_of_paused (srcs : SourceEnv) (s : MachineState)
    (e : Event) (hf : s.pauseFlag = true) : (exec srcs s e).2 = [] := by
  cases e with
  | callStep =>
    cases hw : s.runner.waitP with
    | some p => simp [exec, step, hw]
    | none => simp [exec, step, waitToBeUnpaused, hw, hf]
  | doPause => simp [exec]
  | doUnpause => simp [exec]
  | tickEv =>
    cases hu : s.runner.upCheckInterval with
    | none => simp [exec, tick, hu]
    | some h => simp [exec, tick, hu, hf]
  | swapIterEv i f => simp [exec]
  | swapFNEv f => simp [exec]
  | callWait => simp [exec]

/-- Every `next()` call issued by an event targets the iterator installed in
the state at the start of the event. -/
theorem exec_advance_targets_current (srcs : SourceEnv) (s : MachineState)
    (e : Event) : ∀ j ∈ (exec srcs s e).2, j = s.runner.stepIterator := by
  cases e with
  | callStep =>
    cases hw : s.runner.waitP with
    | some p => simp [exec, step, hw]
    | none =>
      by_cases hf : s.pauseFlag <;>
        simp [exec, step, waitToBeUnpaused, performStep, hw, hf]
  | doPause => simp [exec]
  | doUnpause => simp [exec]
  | tickEv =>
    cases hu : s.runner.upCheckInterval with
    | none => simp [exec, tick, hu]
    | some h =>
      by_cases hf : s.pauseFlag
      · simp [exec, tick, hu, hf]
      · by_cases hc : s.contPending <;>
          simp [exec, tick, performStep, hu, hf, hc]
  | swapIterEv i f => simp [exec]
  | swapFNEv f => simp [exec]
  | callWait => simp [exec]

/-- No event other than a swap of the iterator changes which iterator is
installed. -/
theorem exec_preserves_stepIterator (srcs : SourceEnv) (s : MachineState)
    (e : Event) (he : e.isSwapIter = false) :
    (exec srcs s e).1.runner.stepIterator = s.runner.stepIterator := by
  cases e with
  | callStep =>
    cases hw : s.runner.waitP with
    | some p => simp [exec, step, hw]
    | none =>
      by_cases hf : s.pauseFlag <;>
        cases hp : s.runner.postStepFN <;>
          simp [exec, step, waitToBeUnpaused, performStep, next, hw, hf, hp]
  | doPause => simp [exec, pause]
  | doUnpause => simp [exec, unpause]
  | tickEv =>
    cases hu : s.runner.upCheckInterval with
    | none => simp [exec, tick, hu]
    | some h =>
      by_cases hf : s.pauseFlag
      · simp [exec, tick, hu, hf]
      · by_cases hc : s.contPending <;>
          cases hp : s.runner.postStepFN <;>
            simp [exec, tick, performStep, next, hu, hf, hc, hp]
  | swapIterEv i f => simp [Event.isSwapIter] at he
  | swapFNEv f => simp [exec, swapPostStepFn]
  | callWait =>
    cases hw : s.runner.waitP with
    | some p => simp [exec, waitToBeUnpaused, hw]
    | none => simp [exec, waitToBeUnpaused, hw]

/-- Along a trace begun with the pause flag true and containing no unpause,
no `next()` call ever happens and the flag stays true. -/
theorem execTrace_no_advance_of_paused (srcs : SourceEnv) (s : MachineState)
    (es : List Event) (hf : s.pauseFlag = true)
    (he : ∀ e ∈ es, e ≠ Event.doUnpause) :
    (execTrace srcs s es).2 = [] ∧ (execTrace srcs s es).1.pauseFlag = true := by
  induction es generalizing s with
  | nil => exact ⟨rfl, hf⟩
  | cons e es ih =>
    have he1 : e ≠ Event.doUnpause := he e (List.mem_cons_self e es)
    have hrest := ih (exec srcs s e).1
      (exec_preserves_pauseFlag srcs s e hf he1)
      (fun x hx => he x (List.mem_cons_of_mem e hx))
    simp [execTrace, exec_no_advance_of_paused srcs s e hf, hrest.1, hrest.2]

/-- Along a trace containing no iterator swap, every `next()` call targets
the iterator installed at the start of the trace. -/
theorem execTrace_advances_target (srcs : SourceEnv) (s : MachineState)
    (es : List Event) (he : ∀ e ∈ es, e.isSwapIter = false) :
    ∀ j ∈ (execTrace srcs s es).2, j = s.runner.stepIterator := by
  induction es generalizing s with
  | nil => intro j hj; simp [execTrace] at hj
  | cons e es ih =>
    intro j hj
    simp only [execTrace, List.mem_append] at hj
    rcases hj with hj | hj
    · exact exec_advance_targets_current srcs s e j hj
    · have := ih (exec srcs s e).1
        (fun x hx => he x (List.mem_cons_of_mem e hx)) j hj
      rw [this, exec_preserves_stepIterator srcs s e
        (he e (List.mem_cons_self e es))]

/-- The scenario trace of two overlapping step calls issued while paused. -/
def overlapTrace : List Event :=
  [Event.doPause, Event.callStep, Event.callStep, Event.doUnpause, Event.tickEv]

/-- C1: when a pending wait is outstanding, `step()` returns exactly that
future and changes nothing, so it does not advance the iterator; and in the
concrete overlap scenario (pause, two step calls, unpause, tick) the second
call returns the identical future of the first and exactly one source element
is consumed. -/
theorem step_with_outstanding_wait_is_identity :
    (∀ (srcs : SourceEnv) (s : MachineState) (p : Nat),
        s.runner.waitP = some p →
        step srcs s = (s, StepReturn.joinedWait p)) ∧
    ((step srcsAB (pause (initialState false 0 none))).2
        = StepReturn.newWait 0 ∧
     (step srcsAB (step srcsAB (pause (initialState false 0 none))).1).2
        = StepReturn.joinedWait 0 ∧
     (step srcsAB (step srcsAB (pause (initialState false 0 none))).1).1
        = (step srcsAB (pause (initialState false 0 none))).1 ∧
     (execTrace srcsAB (initialState false 0 none) overlapTrace).2 = [0] ∧
     (execTrace srcsAB (initialState false 0 none) overlapTrace).1.cursors 0
        = 1) := by
  constructor
  · intro srcs s p hw
    simp [step, hw]
  · exact ⟨rfl, rfl, rfl, rfl, rfl⟩

/-- Witness for C1 at a concrete state holding a pending wait. -/
theorem step_with_outstanding_wait_is_identity_witness :
    step srcsAB (step srcsAB (pause (initialState false 0 none))).1
      = ((step srcsAB (pause (initialState false 0 none))).1,
         StepReturn.joinedWait 0) :=
  step_with_outstanding_wait_is_identity.1 srcsAB
    (step srcsAB (pause (initialState false 0 none))).1 0 rfl

/-- C2: an event observing the pause flag true never calls `next()`; along
any trace started paused and containing no unpause the iterator is never
advanced; and any event that does advance the iterator started from a state
whose pause flag was false. -/
theorem paused_never_advances_source :
    (∀ (srcs : SourceEnv) (s : MachineState) (e : Event),
        s.pauseFlag = true → (exec srcs s e).2 = []) ∧
    (∀ (srcs : SourceEnv) (s : MachineState) (es : List Event),
        s.pauseFlag = true → (∀ e ∈ es, e ≠ Event.doUnpause) →
        (execTrace srcs s es).2 = []) ∧
    (∀ (srcs : SourceEnv) (s : MachineState) (e : Event),
        (exec srcs s e).2 ≠ [] → s.pauseFlag = false) := by
  refine ⟨fun srcs s e hf => exec_no_advance_of_paused srcs s e hf,
          fun srcs s es hf he =>
            (execTrace_no_advance_of_paused srcs s es hf he).1,
          fun srcs s e hne => ?_⟩
  by_contra hf
  exact hne (exec_no_advance_of_paused srcs s e (Bool.not_eq_false _ ▸ hf))

/-- Witness for C2 at a concrete paused state and a step call. -/
theorem paused_never_advances_source_witness :
    (exec srcsAB (pause (initialState false 0 none)) Event.callStep).2 = []
      ∧ (execTrace srcsAB (pause (initialState false 0 none))
          [Event.callStep, Event.callStep, Event.tickEv]).2 = [] :=
  ⟨paused_never_advances_source.1 srcsAB (pause (initialState false 0 none))
      Event.callStep rfl,
   paused_never_advances_source.2.1 srcsAB (pause (initialState false 0 none))
      [Event.callStep, Event.callStep, Event.tickEv] rfl
      (by
        intro e he
        simp only [List.mem_cons, List.not_mem_nil, or_false] at he
        rcases he with h | h | h <;> subst h <;> simp)⟩

/-- C3: a call of `waitToBeUnpaused()` while a wait is outstanding returns
the identical future without touching the state (so no second future or
polling loop ever exists); a tick with the interval live that observes the
pause flag false stops the interval and clears the wait slot; and on a state
with no outstanding wait, `waitToBeUnpaused()` allocates exactly one fresh
future and stores it in the slot. -/
theorem at_most_one_pending_wait :
    (∀ (s : MachineState) (p : Nat),
        s.runner.waitP = some p → waitToBeUnpaused s = (s, p)) ∧
    (∀ (srcs : SourceEnv) (s : MachineState),
        s.runner.upCheckInterval.isSome → s.pauseFlag = false →
        (tick srcs s).1.runner.upCheckInterval = none ∧
        (tick srcs s).1.runner.waitP = none) ∧
    (∀ s : MachineState,
        s.runner.waitP = none →
        (waitToBeUnpaused s).1.runner.waitP = some s.nextPromiseId ∧
        (waitToBeUnpaused s).2 = s.nextPromiseId ∧
        (waitToBeUnpaused s).1.nextPromiseId = s.nextPromiseId + 1) := by
  refine ⟨fun s p hw => by simp [waitToBeUnpaused, hw],
          fun srcs s hu hf => ?_, fun s hw => by simp [waitToBeUnpaused, hw]⟩
  rcases Option.isSome_iff_exists.mp hu with ⟨h, hu⟩
  by_cases hc : s.contPending <;>
    cases hp : s.runner.postStepFN <;>
      simp [tick, performStep, next, hu, hf, hc, hp]

/-- Witness for C3 at concrete states. -/
theorem at_most_one_pending_wait_witness :
    waitToBeUnpaused (step srcsAB (pause (initialState false 0 none))).1
        = ((step srcsAB (pause (initialState false 0 none))).1, 0) ∧
    (tick srcsAB (unpause (step srcsAB
        (pause (initialState false 0 none))).1)).1.runner.waitP = none ∧
    (waitToBeUnpaused (initialState false 0 none)).1.runner.waitP = some 0 :=
  ⟨at_most_one_pending_wait.1
      (step srcsAB (pause (initialState false 0 none))).1 0 rfl,
   (at_most_one_pending_wait.2.1 srcsAB
      (unpause (step srcsAB (pause (initialState false 0 none))).1)
      rfl rfl).2,
   (at_most_one_pending_wait.2.2 (initialState false 0 none) rfl).1⟩

/-- C4 counterexample: with the always-wait policy installed, calling
`swapPostStepFn` with no argument does not leave that policy in effect: the
slot now holds `undefined`, the next `step()` resolves with the raw iterator
result, and that differs from what the previous policy produces on the same
raw result. -/
theorem swapPostStepFn_no_argument_counterexample :
    (swapPostStepFn (initialState false 0 (some alwaysWaitFN))
        none).runner.postStepFN = none ∧
    (step srcsAB (swapPostStepFn (initialState false 0 (some alwaysWaitFN))
        none)).2
      = StepReturn.immediate (Except.ok (StepRetVal.raw
          { done := false, value := JSVal.str "a" })) ∧
    alwaysWaitFN { done := false, value := JSVal.str "a" }
      = Except.ok { done := false, wait := true } ∧
    StepRetVal.raw { done := false, value := JSVal.str "a" }
      ≠ StepRetVal.outcome { done := false, wait := true } := by
  exact ⟨rfl, rfl, rfl, by decide⟩

/-- C4 amended: calling `swapPostStepFn` with no argument unconditionally
stores `undefined` in the policy slot, so the previous policy is not applied
by the next `step()`, which instead resolves with the raw iterator result;
calling it with a new function installs that function, and it is applied
starting from the very next `step()`. -/
theorem swapPostStepFn_overwrites_policy :
    (∀ (s : MachineState) (newFN : Option PostStepFN),
        (swapPostStepFn s newFN).runner.postStepFN = newFN) ∧
    (∀ (srcs : SourceEnv) (s : MachineState),
        s.pauseFlag = false → s.runner.waitP = none →
        (step srcs (swapPostStepFn s none)).2
          = StepReturn.immediate
              ((srcs s.runner.stepIterator
                  (s.cursors s.runner.stepIterator)).map StepRetVal.raw)) ∧
    (∀ (srcs : SourceEnv) (s : MachineState) (f : PostStepFN),
        s.pauseFlag = false → s.runner.waitP = none →
        (step srcs (swapPostStepFn s (some f))).2
          = StepReturn.immediate
              ((srcs s.runner.stepIterator
                  (s.cursors s.runner.stepIterator)).bind
                fun r => (f r).map StepRetVal.outcome)) := by
  refine ⟨fun s newFN => rfl, fun srcs s hf hw => ?_, fun srcs s f hf hw => ?_⟩
  · simp [step, swapPostStepFn, performStep, next, hf, hw]
  · simp [step, swapPostStepFn, performStep, next, hf, hw]

/-- Witness for the amended C4 at a concrete state and policy. -/
theorem swapPostStepFn_overwrites_policy_witness :
    (swapPostStepFn (initialState false 0 none)
        (some alwaysWaitFN)).runner.postStepFN = some alwaysWaitFN ∧
    (step srcsAB (swapPostStepFn (initialState false 0 none) none)).2
      = StepReturn.immediate ((srcsAB 0 0).map StepRetVal.raw) ∧
    (step srcsAB (swapPostStepFn (initialState false 0 none)
        (some alwaysWaitFN))).2
      = StepReturn.immediate ((srcsAB 0 0).bind
          fun r => (alwaysWaitFN r).map StepRetVal.outcome) :=
  ⟨swapPostStepFn_overwrites_policy.1 (initialState false 0 none)
      (some alwaysWaitFN),
   swapPostStepFn_overwrites_policy.2.1 srcsAB (initialState false 0 none)
      rfl rfl,
   swapPostStepFn_overwrites_policy.2.2 srcsAB (initialState false 0 none)
      alwaysWaitFN rfl rfl⟩

/-- C5: when an unpaused `step()` with no pending wait performs a step, a
rejection of `next()` propagates to the caller as exactly the same error, and
likewise a throw of the installed post-step function; in both cases the pause
flag and the wait slot after the call are exactly what they were before, so a
subsequent call is well-formed. -/
theorem step_failure_propagates_unmodified :
    (∀ (srcs : SourceEnv) (s : MachineState) (e : Error),
        s.pauseFlag = false → s.runner.waitP = none →
        srcs s.runner.stepIterator (s.cursors s.runner.stepIterator)
          = Except.error e →
        (step srcs s).2 = StepReturn.immediate (Except.error e) ∧
        (step srcs s).1.pauseFlag = s.pauseFlag ∧
        (step srcs s).1.runner.waitP = s.runner.waitP) ∧
    (∀ (srcs : SourceEnv) (s : MachineState) (f : PostStepFN)
        (r : StepResult) (e : Error),
        s.pauseFlag = false → s.runner.waitP = none →
        s.runner.postStepFN = some f →
        srcs s.runner.stepIterator (s.cursors s.runner.stepIterator)
          = Except.ok r →
        f r = Except.error e →
        (step srcs s).2 = StepReturn.immediate (Except.error e) ∧
        (step srcs s).1.pauseFlag = s.pauseFlag ∧
        (step srcs s).1.runner.waitP = s.runner.waitP) := by
  constructor
  · intro srcs s e hf hw hsrc
    cases hp : s.runner.postStepFN <;>
      simp [step, performStep, next, Except.map, Except.bind, hf, hw, hp, hsrc]
  · intro srcs s f r e hf hw hp hsrc hfr
    simp [step, performStep, next, Except.map, Except.bind, hf, hw, hp, hsrc,
      hfr]

/-- A concrete iterator environment whose iterator 0 rejects its first
`next()` call with the error boom, and a policy that throws the error bad on
every input. -/
def srcsFail : SourceEnv := fun i k =>
  if i = 0 then Except.error "boom"
  else if k = 0 then Except.ok { done := false, value := JSVal.str "a" }
  else Except.ok { done := true, value := JSVal.undef }

/-- A post-step function that always throws. -/
def throwingFN : PostStepFN := fun _ => Except.error "bad"

/-- Witness for C5: the source rejection and the policy throw each reach the
caller unmodified at concrete states. -/
theorem step_failure_propagates_unmodified_witness :
    ((step srcsFail (initialState false 0 none)).2
        = StepReturn.immediate (Except.error "boom") ∧
     (step srcsFail (initialState false 0 none)).1.pauseFlag = false ∧
     (step srcsFail (initialState false 0 none)).1.runner.waitP = none) ∧
    ((step srcsFail (initialState false 1 (some throwingFN))).2
        = StepReturn.immediate (Except.error "bad") ∧
     (step srcsFail (initialState false 1 (some throwingFN))).1.pauseFlag
        = false ∧
     (step srcsFail (initialState false 1 (some throwingFN))).1.runner.waitP
        = none) :=
  ⟨step_failure_propagates_unmodified.1 srcsFail
      (initialState false 0 none) "boom" rfl rfl rfl,
   step_failure_propagates_unmodified.2 srcsFail
      (initialState false 1 (some throwingFN)) throwingFN
      { done := false, value := JSVal.str "a" } "bad" rfl rfl rfl rfl rfl⟩

/-- C6: swapping the iterator installs the new one; afterwards, along any
continuation of the run that swaps no iterator again, every `next()` call
targets the new iterator and none targets the previously installed one; in
particular an immediate unpaused `step()` right after the swap calls `next()`
exactly once, on the new iterator. -/
theorem step_after_swap_advances_new_source :
    (∀ (s : MachineState) (i : Nat) (f : Option PostStepFN),
        (swapBehaviorIterator s i f).runner.stepIterator = i) ∧
    (∀ (srcs : SourceEnv) (s : MachineState) (i : Nat)
        (f : Option PostStepFN) (es : List Event),
        (∀ e ∈ es, e.isSwapIter = false) →
        ∀ j ∈ (execTrace srcs (swapBehaviorIterator s i f) es).2, j = i) ∧
    (∀ (srcs : SourceEnv) (s : MachineState) (i : Nat)
        (f : Option PostStepFN),
        s.pauseFlag = false → s.runner.waitP = none →
        (exec srcs (swapBehaviorIterator s i f) Event.callStep).2 = [i]) := by
  have hiter : ∀ (s : MachineState) (i : Nat) (f : Option PostStepFN),
      (swapBehaviorIterator s i f).runner.stepIterator = i := by
    intro s i f
    cases f <;> simp [swapBehaviorIterator]
  have hflag : ∀ (s : MachineState) (i : Nat) (f : Option PostStepFN),
      (swapBehaviorIterator s i f).pauseFlag = s.pauseFlag := by
    intro s i f
    cases f <;> simp [swapBehaviorIterator]
  have hwait : ∀ (s : MachineState) (i : Nat) (f : Option PostStepFN),
      (swapBehaviorIterator s i f).runner.waitP = s.runner.waitP := by
    intro s i f
    cases f <;> simp [swapBehaviorIterator]
  refine ⟨hiter, fun srcs s i f es he j hj => ?_, fun srcs s i f hf hw => ?_⟩
  · rw [execTrace_advances_target srcs (swapBehaviorIterator s i f) es he j hj,
      hiter]
  · have h1 := hiter s i f
    have h2 := hflag s i f
    have h3 := hwait s i f
    cases hp : (swapBehaviorIterator s i f).runner.postStepFN <;>
      simp [exec, step, performStep, next, h1, hf ▸ h2, hw ▸ h3, hp]

/-- Witness for C6: after swapping in iterator 1, a step call advances
iterator 1, and a following trace of step calls advances only iterator 1. -/
theorem step_after_swap_advances_new_source_witness :
    (swapBehaviorIterator (initialState false 0 none) 1
        none).runner.stepIterator = 1 ∧
    (exec srcsAB (swapBehaviorIterator (initialState false 0 none) 1 none)
        Event.callStep).2 = [1] ∧
    (∀ j ∈ (execTrace srcsAB
        (swapBehaviorIterator (initialState false 0 none) 1 none)
        [Event.callStep, Event.callStep]).2, j = 1) :=
  ⟨step_after_swap_advances_new_source.1 (initialState false 0 none) 1 none,
   step_after_swap_advances_new_source.2.2 srcsAB
      (initialState false 0 none) 1 none rfl rfl,
   step_after_swap_advances_new_source.2.1 srcsAB
      (initialState false 0 none) 1 none [Event.callStep, Event.callStep]
      (by
        intro e he
        simp only [List.mem_cons, List.not_mem_nil, or_false] at he
        rcases he with h | h <;> subst h <;> rfl)⟩

/-- C7: with iterator 0 yielding value a, then value b, then done, and a
runner constructed without a post-step function (so the default classifier is
installed), three sequential unpaused `step()` calls resolve, in order, with
the default-policy outcome for the first result, the outcome for the second,
and the outcome done and not wait.  (The default policy is modelled from the
spec, since its source file is not present here.) -/
theorem three_steps_default_policy_scenario :
    (initialState false 0 none).runner.postStepFN = some doneOrWait ∧
    (step srcsAB (initialState false 0 none)).2
      = StepReturn.immediate ((doneOrWait
          { done := false, value := JSVal.str "a" }).map StepRetVal.outcome) ∧
    (step srcsAB (step srcsAB (initialState false 0 none)).1).2
      = StepReturn.immediate ((doneOrWait
          { done := false, value := JSVal.str "b" }).map StepRetVal.outcome) ∧
    (step srcsAB (step srcsAB
        (step srcsAB (initialState false 0 none)).1).1).2
      = StepReturn.immediate (Except.ok (StepRetVal.outcome
          { done := true, wait := false })) :=
  ⟨rfl, rfl, rfl, rfl⟩

/-- C8: `unpause()` writes only the shared pause flag, never the runner
fields (so no wait future is created or resolved and the interval handle is
untouched); called in the unpaused state it is a complete no-op, leaving the
state identical. -/
theorem unpause_idempotent_when_unpaused :
    (∀ s : MachineState,
        (unpause s).pauseFlag = false ∧
        (unpause s).runner = s.runner ∧
        (unpause s).nextPromiseId = s.nextPromiseId ∧
        (unpause s).contPending = s.contPending) ∧
    (∀ s : MachineState, s.pauseFlag = false → unpause s = s) := by
  refine ⟨fun s => ⟨rfl, rfl, rfl, rfl⟩, fun s hf => ?_⟩
  cases s with
  | mk flag r n c cp =>
    simp only [unpause]
    simp_all

/-- Witness for C8 at a concrete unpaused state. -/
theorem unpause_idempotent_when_unpaused_witness :
    unpause (initialState false 0 none) = initialState false 0 none :=
  unpause_idempotent_when_unpaused.2 (initialState false 0 none) rfl

/-- C9: for every window, iterator and optional policy,
`initRunnableBehavior` stores the iterator in the step-iterator slot, the
freshly constructed runner in the runner slot, the bound `step` method of
that same runner in the handler slot, appends exactly one synthetic mousemove
event with the fixed coordinates to the dispatch log, and returns the
runner. -/
theorem initRunnableBehavior_registers_and_primes
    (win : WindowObj) (it : Nat) (fn : Option PostStepFN) :
    initRunnableBehavior win it fn
      = ({ stepIterSlot := some it
           runnerSlot := some (BehaviorRunner.new it fn)
           handlerSlot := some (BehaviorRunner.new it fn)
           dispatched := win.dispatched ++
             [createMouseEvent "mousemove"
               { pageX := 15, pageY := 15, clientX := 150, clientY := 150,
                 screenX := 500, screenY := 250 }] },
         BehaviorRunner.new it fn) ∧
    ((initRunnableBehavior win it fn).1.dispatched).length
      = win.dispatched.length + 1 :=
  ⟨rfl, by simp [initRunnableBehavior]⟩

/-- Witness for C9 at a concrete empty window. -/
theorem initRunnableBehavior_registers_and_primes_witness :
    initRunnableBehavior
        { stepIterSlot := none, runnerSlot := none, handlerSlot := none,
          dispatched := [] } 0 none
      = ({ stepIterSlot := some 0
           runnerSlot := some (BehaviorRunner.new 0 none)
           handlerSlot := some (BehaviorRunner.new 0 none)
           dispatched := [createMouseEvent "mousemove"
             { pageX := 15, pageY := 15, clientX := 150, clientY := 150,
               screenX := 500, screenY := 250 }] },
         BehaviorRunner.new 0 none) :=
  (initRunnableBehavior_registers_and_primes
      { stepIterSlot := none, runnerSlot := none, handlerSlot := none,
        dispatched := [] } 0 none).1

/-- C10: when the post-step slot holds `undefined` (for example after
`swapPostStepFn` was called with no argument), `performStep` resolves with
the raw iterator result passed through unchanged, and so does an unpaused
`step()` with no pending wait. -/
theorem performStep_without_policy_returns_raw :
    (∀ (srcs : SourceEnv) (s : MachineState),
        s.runner.postStepFN = none →
        (performStep srcs s).2
          = (srcs s.runner.stepIterator
              (s.cursors s.runner.stepIterator)).map StepRetVal.raw) ∧
    (∀ (srcs : SourceEnv) (s : MachineState),
        s.runner.postStepFN = none →
        s.pauseFlag = false → s.runner.waitP = none →
        (step srcs s).2
          = StepReturn.immediate
              ((srcs s.runner.stepIterator
                  (s.cursors s.runner.stepIterator)).map StepRetVal.raw)) := by
  constructor
  · intro srcs s hp
    simp [performStep, next, hp]
  · intro srcs s hp hf hw
    simp [step, performStep, next, hp, hf, hw]

/-- Witness for C10 at a concrete state whose post-step slot was cleared by a
no-argument swap. -/
theorem performStep_without_policy_returns_raw_witness :
    (step srcsAB (swapPostStepFn (initialState false 0
        (some alwaysWaitFN)) none)).2
      = StepReturn.immediate ((srcsAB 0 0).map StepRetVal.raw) :=
  performStep_without_policy_returns_raw.2 srcsAB
    (swapPostStepFn (initialState false 0 (some alwaysWaitFN)) none)
    rfl rfl rfl

end Behaviors
